import Mathlib

/-!
Shallow embedding of the gogo-framework/router package (src/router.go).

Strings from the Go side (patterns, prefixes, HTTP method tokens, the
strings handed to the multiplexer) are modelled as `List Char`.  Handlers
are an abstract type `H`; a Go `Middleware` (`func(http.HandlerFunc)
http.HandlerFunc`) is a function `H → H`.  Fallible code (Go panics, here
the out-of-range index in `SanitizePath` on an empty string) is modelled
with `Option`.
-/

namespace GogoRouter

/-- The literal character `{` (ASCII 123). -/
def lbrace : Char := Char.ofNat 123

/-- The literal character `}` (ASCII 125). -/
def rbrace : Char := Char.ofNat 125

/-- The exact-match marker the router appends, written in the Go source as
the three-character string between the method pattern quotes (open brace,
dollar, close brace). -/
def exactMatchMarker : List Char := [lbrace, '$', rbrace]

/-- Function `applyMiddlewares` from src/router.go lines 13-18: the Go loop runs
`for i := len(middlewares) - 1; i >= 0; i--` doing
`handler = middlewares[i](handler)`, i.e. it folds over the reversed list,
applying each middleware to the accumulated handler. -/
def applyMiddlewares {H : Type} (handler : H) (middlewares : List (H → H)) : H :=
  middlewares.reverse.foldl (fun h m => m h) handler

/-- Struct `Route` from src/router.go lines 20-25. -/
structure Route (H : Type) where
  Method : List Char
  Pattern : List Char
  HandlerFunc : H
  Middlewares : List (H → H)

/-- Method `Route.Use` from src/router.go lines 27-30: appends to the route's own
middleware list and returns the (updated) route. -/
def Route.use {H : Type} (r : Route H) (middleware : List (H → H)) : Route H :=
  { r with Middlewares := r.Middlewares ++ middleware }

/-- Struct `RouteGroup` from src/router.go lines 32-36.  The Go field `Prefix` is
called `Pre` here. -/
structure RouteGroup (H : Type) where
  Pre : List Char
  Middlewares : List (H → H)
  Routes : List (Route H)

/-- Method `RouteGroup.Use` from src/router.go lines 38-41. -/
def RouteGroup.use {H : Type} (rg : RouteGroup H) (middleware : List (H → H)) : RouteGroup H :=
  { rg with Middlewares := rg.Middlewares ++ middleware }

/-- Struct `RouterConfig` from src/router.go lines 43-50. -/
structure RouterConfig where
  DisableAutoAddExactMatchWildcard : Bool
  DisableAutoAddTrailingSlash : Bool

/-- Struct `Router` from src/router.go lines 52-61, restricted to the fields the
registration and setup logic reads (the mutex and the mux are modelled
separately: the mux as the registration list produced by `setupRoutes`,
the mutex in the dispatch interleaving model below). -/
structure Router (H : Type) where
  routes : List (Route H)
  routeGroups : List (RouteGroup H)
  middlewares : List (H → H)
  hasSetupRoutes : Bool
  config : RouterConfig

/-- Constructor `NewRouter` from src/router.go: `&Router{}`, all fields zero-valued. -/
def newRouter (H : Type) : Router H :=
  { routes := [], routeGroups := [], middlewares := [], hasSetupRoutes := false,
    config := { DisableAutoAddExactMatchWildcard := false, DisableAutoAddTrailingSlash := false } }

/-- Method `Router.RegisterRoute` from src/router.go lines 74-83: builds a Route
with a nil middleware list, appends it to the router's route list, and
returns it (so the caller can chain `Use`). -/
def Router.registerRoute {H : Type} (r : Router H) (method pattern : List Char) (handler : H) :
    Router H × Route H :=
  let route : Route H :=
    { Method := method, Pattern := pattern, HandlerFunc := handler, Middlewares := [] }
  ({ r with routes := r.routes ++ [route] }, route)

/-- Method `Router.Use` from src/router.go lines 135-137: appends to the router's
global middleware list. -/
def Router.use {H : Type} (r : Router H) (middleware : List (H → H)) : Router H :=
  { r with middlewares := r.middlewares ++ middleware }

/-- The transient sub-router `tmpRouter` built at the start of
`Router.Group` (src/router.go lines 122-124): all fields zero-valued
except `middlewares`, which is a copy of the parent's current global
middleware list. -/
def groupTmp {H : Type} (r : Router H) : Router H :=
  { routes := [], routeGroups := [], middlewares := r.middlewares, hasSetupRoutes := false,
    config := { DisableAutoAddExactMatchWildcard := false, DisableAutoAddTrailingSlash := false } }

/-- Method `Router.Group` from src/router.go lines 121-133: runs the builder
callback against the seeded sub-router, then captures the sub-router's
routes and middleware list as the new group's state and appends the group
to the parent's group list.  The builder is the shallow embedding of the
caller-supplied `func(r *Router)`: a state transformer on the sub-router. -/
def Router.group {H : Type} (r : Router H) (pre : List Char) (builder : Router H → Router H) :
    Router H × RouteGroup H :=
  let t := builder (groupTmp r)
  let rg : RouteGroup H := { Pre := pre, Routes := t.routes, Middlewares := t.middlewares }
  ({ r with routeGroups := r.routeGroups ++ [rg] }, rg)

/-- Call `strings.Contains(path, "//")` specialised to the double-slash
search in `SanitizePath` (src/router.go line 144). -/
def containsDS : List Char → Bool
  | c :: d :: rest => (c == '/' && d == '/') || containsDS (d :: rest)
  | _ => false

/-- Call `strings.Replace(path, "//", "/", -1)` (src/router.go line 145):
replaces every non-overlapping occurrence of two consecutive slashes by a
single slash, scanning left to right and continuing after each
replacement. -/
def replaceDS : List Char → List Char
  | [] => []
  | [c] => [c]
  | c :: d :: rest =>
    if c = '/' ∧ d = '/' then '/' :: replaceDS rest
    else c :: replaceDS (d :: rest)

theorem replaceDS_length_le : ∀ l : List Char, (replaceDS l).length ≤ l.length := by
  intro l
  induction l using replaceDS.induct with
  | case1 => simp [replaceDS]
  | case2 c => simp [replaceDS]
  | case3 c d rest h ih =>
    simp only [replaceDS, if_pos h, List.length_cons]
    omega
  | case4 c d rest h ih =>
    simp only [replaceDS, if_neg h, List.length_cons]
    simp only [List.length_cons] at ih
    omega

theorem replaceDS_length_lt :
    ∀ l : List Char, containsDS l = true → (replaceDS l).length < l.length := by
  intro l
  induction l using replaceDS.induct with
  | case1 => intro h; simp [containsDS] at h
  | case2 c => intro h; simp [containsDS] at h
  | case3 c d rest h ih =>
    intro _
    have := replaceDS_length_le rest
    simp only [replaceDS, if_pos h, List.length_cons]
    omega
  | case4 c d rest h ih =>
    intro hc
    simp only [containsDS, Bool.or_eq_true, Bool.and_eq_true, beq_iff_eq] at hc
    rcases hc with ⟨hc1, hc2⟩ | hc
    · exact absurd ⟨hc1, hc2⟩ h
    · have := ih hc
      simp only [replaceDS, if_neg h, List.length_cons]
      simp only [List.length_cons] at this ⊢
      omega

/-- The collapsing loop of `SanitizePath` (src/router.go lines 144-146):
`for strings.Contains(path, "//") { path = strings.Replace(path, "//", "/", -1) }`. -/
def collapseLoop (path : List Char) : List Char :=
  if h : containsDS path = true then collapseLoop (replaceDS path)
  else path
termination_by path.length
decreasing_by exact replaceDS_length_lt path h

/-- Structural normal form of the collapsing loop: squeeze every run of
consecutive slashes down to a single slash.  Proven below to coincide with
`collapseLoop`; being structurally recursive it also lets concrete inputs
be evaluated by `decide`. -/
def squeeze : List Char → List Char
  | [] => []
  | [c] => [c]
  | c :: d :: rest =>
    if c = '/' ∧ d = '/' then squeeze (d :: rest)
    else c :: squeeze (d :: rest)

theorem squeeze_cons_ds (rest : List Char) :
    squeeze ('/' :: '/' :: rest) = squeeze ('/' :: rest) := by
  simp [squeeze]

theorem squeeze_cons_ne {c d : Char} (rest : List Char) (h : ¬(c = '/' ∧ d = '/')) :
    squeeze (c :: d :: rest) = c :: squeeze (d :: rest) := by
  simp only [squeeze, if_neg h]

/-- The head character survives squeezing. -/
theorem squeeze_cons_ex : ∀ (rest : List Char) (d : Char),
    ∃ t : List Char, squeeze (d :: rest) = d :: t := by
  intro rest
  induction rest with
  | nil => intro d; exact ⟨[], rfl⟩
  | cons e r ih =>
    intro d
    by_cases h : d = '/' ∧ e = '/'
    · obtain ⟨hd, he⟩ := h
      subst hd; subst he
      obtain ⟨t, ht⟩ := ih '/'
      exact ⟨t, by rw [squeeze_cons_ds, ht]⟩
    · exact ⟨squeeze (e :: r), squeeze_cons_ne r h⟩

theorem containsDS_squeeze : ∀ l : List Char, containsDS (squeeze l) = false := by
  intro l
  induction l using squeeze.induct with
  | case1 => rfl
  | case2 c => rfl
  | case3 c d rest h ih => rw [squeeze, if_pos h]; exact ih
  | case4 c d rest h ih =>
    rw [squeeze_cons_ne rest h]
    obtain ⟨t, ht⟩ := squeeze_cons_ex rest d
    rw [ht]
    rw [ht] at ih
    simp only [containsDS, Bool.or_eq_false_iff, Bool.and_eq_false_iff, beq_eq_false_iff_ne]
    constructor
    · by_cases hc : c = '/'
      · right; intro hd; exact h ⟨hc, hd⟩
      · left; exact hc
    · exact ih

theorem squeeze_of_not_containsDS : ∀ l : List Char, containsDS l = false → squeeze l = l := by
  intro l
  induction l using squeeze.induct with
  | case1 => intro _; rfl
  | case2 c => intro _; rfl
  | case3 c d rest h ih =>
    intro hc
    simp [containsDS, h.1, h.2] at hc
  | case4 c d rest h ih =>
    intro hc
    simp only [containsDS, Bool.or_eq_false_iff] at hc
    rw [squeeze_cons_ne rest h, ih hc.2]

theorem squeeze_cons_replaceDS : ∀ (l : List Char) (c : Char),
    squeeze (c :: replaceDS l) = squeeze (c :: l) := by
  intro l
  induction l using replaceDS.induct with
  | case1 => intro c; rfl
  | case2 d => intro c; rfl
  | case3 d e rest h ih =>
    intro c
    rw [replaceDS, if_pos h, h.1, h.2]
    by_cases hc : c = '/'
    · subst hc
      rw [squeeze_cons_ds, squeeze_cons_ds, squeeze_cons_ds, ih]
    · have hne : ¬(c = '/' ∧ '/' = '/') := fun hx => hc hx.1
      rw [squeeze_cons_ne _ hne, squeeze_cons_ne _ hne, squeeze_cons_ds, ih]
  | case4 d e rest h ih =>
    intro c
    rw [replaceDS, if_neg h]
    by_cases hc : c = '/' ∧ d = '/'
    · rw [hc.1, hc.2] at *
      rw [squeeze_cons_ds, squeeze_cons_ds, ih]
    · rw [squeeze_cons_ne _ hc, squeeze_cons_ne _ hc, ih]

theorem squeeze_replaceDS : ∀ l : List Char, squeeze (replaceDS l) = squeeze l := by
  intro l
  match l with
  | [] => rfl
  | [c] => rfl
  | c :: d :: rest =>
    by_cases h : c = '/' ∧ d = '/'
    · rw [replaceDS, if_pos h, h.1, h.2, squeeze_cons_replaceDS, squeeze_cons_ds]
    · rw [replaceDS, if_neg h, squeeze_cons_replaceDS]

theorem collapseLoop_eq_squeeze (l : List Char) : collapseLoop l = squeeze l := by
  have H : ∀ (n : Nat) (l : List Char), l.length ≤ n → collapseLoop l = squeeze l := by
    intro n
    induction n with
    | zero =>
      intro l hl
      have hnil : l = [] := List.eq_nil_of_length_eq_zero (Nat.le_zero.mp hl)
      subst hnil
      rw [collapseLoop]
      simp [containsDS, squeeze]
    | succ n ih =>
      intro l hl
      rw [collapseLoop]
      by_cases h : containsDS l = true
      · rw [dif_pos h]
        have hlt := replaceDS_length_lt l h
        rw [ih (replaceDS l) (by omega), squeeze_replaceDS]
      · rw [dif_neg h]
        exact (squeeze_of_not_containsDS l (Bool.eq_false_iff.mpr h)).symm
  exact H l.length l le_rfl

/-- Squeezing ignores a duplicated slash anywhere, in particular at the
junction between a group's path fragment and a route's pattern. -/
theorem squeeze_append_ds : ∀ (u v : List Char),
    squeeze (u ++ '/' :: '/' :: v) = squeeze (u ++ '/' :: v) := by
  intro u
  induction u with
  | nil => intro v; exact squeeze_cons_ds v
  | cons c u' ih =>
    intro v
    match u' with
    | [] =>
      by_cases hc : c = '/'
      · subst hc
        simp only [List.cons_append, List.nil_append]
        exact squeeze_cons_ds ('/' :: v)
      · have hne : ¬(c = '/' ∧ '/' = '/') := fun hx => hc hx.1
        simp only [List.cons_append, List.nil_append]
        rw [squeeze_cons_ne _ hne, squeeze_cons_ne _ hne, squeeze_cons_ds]
    | d :: u'' =>
      have ihd := ih v
      simp only [List.cons_append] at ihd ⊢
      by_cases h : c = '/' ∧ d = '/'
      · obtain ⟨hc, hd⟩ := h
        subst hc; subst hd
        rw [squeeze_cons_ds, squeeze_cons_ds]
        exact ihd
      · rw [squeeze_cons_ne _ h, squeeze_cons_ne _ h, ihd]

theorem squeeze_replicate : ∀ n : Nat, squeeze (List.replicate (n + 1) '/') = ['/'] := by
  intro n
  induction n with
  | zero => rfl
  | succ m ih =>
    rw [List.replicate_succ, List.replicate_succ]
    rw [squeeze_cons_ds]
    rw [← List.replicate_succ]
    exact ih

/-- Step (3) of `SanitizePath`, src/router.go lines 148-150:
`if path[0] != '/' { path = "/" + path }`.  The collapsed path is already
known non-empty here, split as `c :: cs`. -/
def withLeadingSlash (c : Char) (cs : List Char) : List Char :=
  if c ≠ '/' then '/' :: c :: cs else c :: cs

/-- Step (4) of `SanitizePath`, src/router.go lines 152-154:
`if !r.config.DisableAutoAddTrailingSlash && path[len(path)-1] != '/' { path = path + "/" }`. -/
def withTrailingSlash (cfg : RouterConfig) (p : List Char) : List Char :=
  if ¬cfg.DisableAutoAddTrailingSlash ∧ p.getLast? ≠ some '/' then p ++ ['/'] else p

/-- Step (5) of `SanitizePath`, src/router.go lines 156-158:
`if !r.config.DisableAutoAddExactMatchWildcard { path = path + "{$}" }`. -/
def withWildcard (cfg : RouterConfig) (p : List Char) : List Char :=
  if ¬cfg.DisableAutoAddExactMatchWildcard then p ++ exactMatchMarker else p

/-- Method `Router.SanitizePath` from src/router.go lines 139-161.  The Go method
reads the flags from `r.config`; here the config is passed explicitly.
Steps, in source order: (1) if both normalization flags are disabled,
return the path unchanged; (2) collapse double slashes in a loop;
(3) `path[0] != '/'`: on an empty string this Go index expression panics
(index out of range), modelled as `none`; otherwise prepend a slash when
missing; (4) unless disabled, append a trailing slash when the last
character is not a slash; (5) unless disabled, append the exact-match
marker. -/
def sanitizePath (cfg : RouterConfig) (path : List Char) : Option (List Char) :=
  if cfg.DisableAutoAddTrailingSlash ∧ cfg.DisableAutoAddExactMatchWildcard then
    some path
  else
    match collapseLoop path with
    | [] => none
    | c :: cs => some (withWildcard cfg (withTrailingSlash cfg (withLeadingSlash c cs)))

/-- Method `Router.GetPathForRoute` from src/router.go lines 163-166:
`fmt.Sprintf("/%s", route.Pattern)` then
`fmt.Sprintf("%s %s", route.Method, r.SanitizePath(path))`. -/
def getPathForRoute {H : Type} (cfg : RouterConfig) (route : Route H) : Option (List Char) :=
  (sanitizePath cfg ('/' :: route.Pattern)).map (fun p => route.Method ++ ' ' :: p)

/-- Method `Router.GetPathForRouteWithRouteGroup` from src/router.go lines
168-171: `fmt.Sprintf("/%s/%s", routeGroup.Prefix, route.Pattern)` then
method-prefixing as above. -/
def getPathForRouteWithRouteGroup {H : Type} (cfg : RouterConfig) (route : Route H)
    (routeGroup : RouteGroup H) : Option (List Char) :=
  (sanitizePath cfg ('/' :: routeGroup.Pre ++ '/' :: route.Pattern)).map
    (fun p => route.Method ++ ' ' :: p)

/-- Closure `combineMiddlewares` from src/router.go lines 197-202: globals first,
then the route-side list. -/
def combineMiddlewares {H : Type} (routeMiddlewares globalMiddlewares : List (H → H)) :
    List (H → H) :=
  globalMiddlewares ++ routeMiddlewares

/-- Method `Router.SetupRoutes` from src/router.go lines 190-225, modelled as the
list of `(pattern-string, composed handler)` registrations handed to the
multiplexer's `HandleFunc`, in registration order: first every top-level
route, then every route of every group.  For a top-level route the
middleware argument is `combineMiddlewares(route.Middlewares,
r.middlewares)`; for a group route it is
`combineMiddlewares(append(routeGroup.Middlewares, route.Middlewares...),
r.middlewares)`. -/
def setupRoutes {H : Type} (r : Router H) : List (Option (List Char) × H) :=
  (r.routes.map (fun route =>
    (getPathForRoute r.config route,
     applyMiddlewares route.HandlerFunc (combineMiddlewares route.Middlewares r.middlewares))))
  ++ ((r.routeGroups.map (fun rg =>
      rg.Routes.map (fun route =>
        (getPathForRouteWithRouteGroup r.config route rg,
         applyMiddlewares route.HandlerFunc
           (combineMiddlewares (rg.Middlewares ++ route.Middlewares) r.middlewares))))).flatten)

theorem containsDS_nil : containsDS [] = false := rfl

theorem containsDS_one (c : Char) : containsDS [c] = false := rfl

theorem containsDS_cons2 (c d : Char) (rest : List Char) :
    containsDS (c :: d :: rest) = ((c == '/' && d == '/') || containsDS (d :: rest)) := rfl

theorem getLast?_cons_cons (a b : Char) (l : List Char) :
    (a :: b :: l).getLast? = (b :: l).getLast? := by
  simp [List.getLast?_cons_cons]

/-- Where a double slash in `l ++ m` can come from: inside `l`, inside
`m`, or at the junction. -/
theorem containsDS_append : ∀ l m : List Char,
    containsDS (l ++ m) = true ↔
      containsDS l = true ∨ containsDS m = true ∨
        (l.getLast? = some '/' ∧ m.head? = some '/') := by
  intro l
  induction l with
  | nil =>
    intro m
    simp [containsDS]
  | cons a l' ih =>
    intro m
    match l' with
    | [] =>
      match m with
      | [] => simp [containsDS]
      | b :: m' =>
        simp only [List.cons_append, List.nil_append, containsDS_cons2, containsDS_one,
          Bool.or_eq_true, Bool.and_eq_true, beq_iff_eq, List.getLast?_singleton,
          List.head?_cons, Option.some.injEq, Bool.false_eq_true, false_or]
        tauto
    | b :: l'' =>
      have ihb := ih m
      simp only [List.cons_append] at ihb ⊢
      simp only [containsDS_cons2, Bool.or_eq_true, Bool.and_eq_true, beq_iff_eq] at ihb ⊢
      rw [getLast?_cons_cons]
      constructor
      · rintro (hab | h)
        · exact Or.inl (Or.inl hab)
        · rcases ihb.mp h with h1 | h2 | h3
          · exact Or.inl (Or.inr h1)
          · exact Or.inr (Or.inl h2)
          · exact Or.inr (Or.inr h3)
      · rintro ((hab | h1) | h2 | h3)
        · exact Or.inl hab
        · exact Or.inr (ihb.mpr (Or.inl h1))
        · exact Or.inr (ihb.mpr (Or.inr (Or.inl h2)))
        · exact Or.inr (ihb.mpr (Or.inr (Or.inr h3)))

theorem containsDS_withLeadingSlash (c : Char) (cs : List Char)
    (h : containsDS (c :: cs) = false) : containsDS (withLeadingSlash c cs) = false := by
  unfold withLeadingSlash
  split
  · next hc =>
    rw [containsDS_cons2, h]
    simp only [Bool.or_false, Bool.and_eq_false_iff, beq_eq_false_iff_ne]
    right
    exact hc
  · exact h

theorem containsDS_withTrailingSlash (cfg : RouterConfig) (p : List Char)
    (h : containsDS p = false) : containsDS (withTrailingSlash cfg p) = false := by
  unfold withTrailingSlash
  split
  · next hcond =>
    rw [Bool.eq_false_iff]
    intro hds
    rcases (containsDS_append p ['/']).mp hds with h1 | h2 | h3
    · rw [h] at h1; cases h1
    · cases h2
    · exact hcond.2 h3.1
  · exact h

theorem containsDS_withWildcard (cfg : RouterConfig) (p : List Char)
    (h : containsDS p = false) : containsDS (withWildcard cfg p) = false := by
  unfold withWildcard
  split
  · rw [Bool.eq_false_iff]
    intro hds
    rcases (containsDS_append p exactMatchMarker).mp hds with h1 | h2 | h3
    · rw [h] at h1; cases h1
    · exact absurd h2 (by decide)
    · have hh : exactMatchMarker.head? = some lbrace := rfl
      rw [hh] at h3
      exact absurd h3.2 (by decide)
  · exact h

/-- When at least one normalization flag is on, the sanitizer's output
depends on the input only through the collapsed form. -/
theorem sanitizePath_congr (cfg : RouterConfig) (p q : List Char)
    (hcfg : ¬(cfg.DisableAutoAddTrailingSlash = true ∧
      cfg.DisableAutoAddExactMatchWildcard = true))
    (h : collapseLoop p = collapseLoop q) : sanitizePath cfg p = sanitizePath cfg q := by
  unfold sanitizePath
  rw [if_neg hcfg, if_neg hcfg, h]

/-- The sanitizer never fails on a non-empty input. -/
theorem sanitizePath_isSome (cfg : RouterConfig) (path : List Char) (h : path ≠ []) :
    (sanitizePath cfg path).isSome = true := by
  unfold sanitizePath
  split
  · rfl
  · match hp : path with
    | [] => exact absurd rfl h
    | c :: cs =>
      obtain ⟨t, ht⟩ := squeeze_cons_ex cs c
      rw [collapseLoop_eq_squeeze, ht]
      rfl

/-- Program locations of one request thread executing `Router.ServeHTTP`
(src/router.go lines 227-235):
0 = about to evaluate the condition `!r.hasSetupRoutes`;
1 = condition was true, about to call `r.mutex.Lock()`;
2 = holding the lock, about to call `r.SetupRoutes()`;
3 = about to execute `r.hasSetupRoutes = true`;
4 = about to call `r.mutex.Unlock()`;
5 = past the conditional, forwarding the request to the mux.
`setupCount` counts completed executions of `SetupRoutes` (each of which
registers every route with the multiplexer once more). -/
structure DispatchState where
  flag : Bool
  lockHeld : Bool
  setupCount : Nat
  pc1 : Nat
  pc2 : Nat

/-- Interleaving semantics of two concurrent requests entering
`Router.ServeHTTP` (src/router.go lines 227-235), one constructor per
atomic step of each thread.  The flag is read ONLY at location 0, before
the lock is acquired; the source contains no second read after
`r.mutex.Lock()`. -/
inductive DispatchStep : DispatchState → DispatchState → Prop
  | seenSet1 (l : Bool) (c p : Nat) : DispatchStep ⟨true, l, c, 0, p⟩ ⟨true, l, c, 5, p⟩
  | seenUnset1 (l : Bool) (c p : Nat) : DispatchStep ⟨false, l, c, 0, p⟩ ⟨false, l, c, 1, p⟩
  | lock1 (f : Bool) (c p : Nat) : DispatchStep ⟨f, false, c, 1, p⟩ ⟨f, true, c, 2, p⟩
  | setup1 (f l : Bool) (c p : Nat) : DispatchStep ⟨f, l, c, 2, p⟩ ⟨f, l, c + 1, 3, p⟩
  | setFlag1 (f l : Bool) (c p : Nat) : DispatchStep ⟨f, l, c, 3, p⟩ ⟨true, l, c, 4, p⟩
  | unlock1 (f l : Bool) (c p : Nat) : DispatchStep ⟨f, l, c, 4, p⟩ ⟨f, false, c, 5, p⟩
  | seenSet2 (l : Bool) (c p : Nat) : DispatchStep ⟨true, l, c, p, 0⟩ ⟨true, l, c, p, 5⟩
  | seenUnset2 (l : Bool) (c p : Nat) : DispatchStep ⟨false, l, c, p, 0⟩ ⟨false, l, c, p, 1⟩
  | lock2 (f : Bool) (c p : Nat) : DispatchStep ⟨f, false, c, p, 1⟩ ⟨f, true, c, p, 2⟩
  | setup2 (f l : Bool) (c p : Nat) : DispatchStep ⟨f, l, c, p, 2⟩ ⟨f, l, c + 1, p, 3⟩
  | setFlag2 (f l : Bool) (c p : Nat) : DispatchStep ⟨f, l, c, p, 3⟩ ⟨true, l, c, p, 4⟩
  | unlock2 (f l : Bool) (c p : Nat) : DispatchStep ⟨f, l, c, p, 4⟩ ⟨f, false, c, p, 5⟩

/-- Both requests arrive at a freshly constructed router: flag unset, lock
free, setup never run. -/
def dispatchInit : DispatchState := ⟨false, false, 0, 0, 0⟩

/-- Restatement of the sanitizer over the structural `squeeze`, used to
evaluate it on concrete inputs. -/
theorem sanitizePath_eq_sq (cfg : RouterConfig) (path : List Char) :
    sanitizePath cfg path =
      (if cfg.DisableAutoAddTrailingSlash ∧ cfg.DisableAutoAddExactMatchWildcard then
        some path
      else
        match squeeze path with
        | [] => none
        | c :: cs => some (withWildcard cfg (withTrailingSlash cfg (withLeadingSlash c cs)))) := by
  unfold sanitizePath
  rw [collapseLoop_eq_squeeze]

/-- The configuration of a freshly constructed router: both normalization
flags off. -/
def defaultConfig : RouterConfig :=
  { DisableAutoAddExactMatchWildcard := false, DisableAutoAddTrailingSlash := false }

/-- The configuration with both normalization steps disabled. -/
def bothDisabledConfig : RouterConfig :=
  { DisableAutoAddExactMatchWildcard := true, DisableAutoAddTrailingSlash := true }

/-- A sample route with raw pattern "x", used on concrete inputs. -/
def c3Route : Route Unit :=
  { Method := "GET".toList, Pattern := "x".toList, HandlerFunc := (), Middlewares := [] }

/-- A sample route group with raw path fragment "api", used on concrete
inputs. -/
def c3Group : RouteGroup Unit := { Pre := "api".toList, Middlewares := [], Routes := [] }

/-- C5: the middleware composer returns the nested composition
`m0 (m1 (... (m_{n-1} handler) ...))`, i.e. the right fold of application
over the middleware list; peeling the head shows `m0` is the outermost
wrapper (the first to run on a request) and the last list element is the
innermost one, applied directly around the base handler. -/
theorem applyMiddlewares_nested :
    ∀ (H : Type) (handler : H) (middlewares : List (H → H)),
      applyMiddlewares handler middlewares =
        middlewares.foldr (fun m h => m h) handler ∧
      ∀ m0 : H → H,
        applyMiddlewares handler (m0 :: middlewares) =
          m0 (applyMiddlewares handler middlewares) := by
  intro H handler middlewares
  have hfold : ∀ ms : List (H → H),
      applyMiddlewares handler ms = ms.foldr (fun m h => m h) handler := by
    intro ms
    unfold applyMiddlewares
    rw [List.foldl_reverse]
  refine ⟨hfold middlewares, fun m0 => ?_⟩
  rw [hfold, hfold, List.foldr_cons]

/-- C10: composing the empty middleware list over any base handler returns
that handler itself. -/
theorem applyMiddlewares_nil_id :
    ∀ (H : Type) (handler : H), applyMiddlewares handler [] = handler := by
  intro H handler
  rfl

/-- C3 (counterexample): with both normalization flags
disabled, the string registered for a route with raw pattern "x" is
"GET /x", not the claimed "GET x": `GetPathForRoute` interpolates the
pattern into "/%s" before sanitizing, so the raw pattern is never used
unprefixed. -/
theorem getPathForRoute_raw_cex :
    getPathForRoute bothDisabledConfig c3Route = some ("GET /x".toList) ∧
      "GET /x".toList ≠ "GET x".toList := by
  constructor
  · rfl
  · decide

/-- C3 (amended): with both normalization flags disabled, the registered
string is the method token, a space, and a '/' followed by the raw
caller-supplied pattern (for a grouped route: '/', the group fragment,
'/', then the pattern), with no further change. -/
theorem getPathForRoute_bothDisabled :
    ∀ (H : Type) (cfg : RouterConfig) (route : Route H) (rg : RouteGroup H),
      cfg.DisableAutoAddTrailingSlash = true →
      cfg.DisableAutoAddExactMatchWildcard = true →
      getPathForRoute cfg route = some (route.Method ++ ' ' :: '/' :: route.Pattern) ∧
      getPathForRouteWithRouteGroup cfg route rg =
        some (route.Method ++ ' ' :: ('/' :: rg.Pre ++ '/' :: route.Pattern)) := by
  intro H cfg route rg h1 h2
  constructor
  · unfold getPathForRoute sanitizePath
    rw [if_pos ⟨h1, h2⟩]
    rfl
  · unfold getPathForRouteWithRouteGroup sanitizePath
    rw [if_pos ⟨h1, h2⟩]
    rfl

/-- C3 (witness): the amended statement evaluated at the sample route and
group. -/
theorem getPathForRoute_bothDisabled_witness :
    getPathForRoute bothDisabledConfig c3Route =
      some (c3Route.Method ++ ' ' :: '/' :: c3Route.Pattern) ∧
    getPathForRouteWithRouteGroup bothDisabledConfig c3Route c3Group =
      some (c3Route.Method ++ ' ' :: ('/' :: c3Group.Pre ++ '/' :: c3Route.Pattern)) :=
  getPathForRoute_bothDisabled Unit bothDisabledConfig c3Route c3Group rfl rfl

/-- C4 (counterexample): under the configuration with both normalization
flags disabled, the input "a//b" (which contains consecutive slashes) is
returned unchanged by the sanitizer, so the output still contains a run of
two slashes. -/
theorem sanitize_ds_cex :
    containsDS ("a//b".toList) = true ∧
      sanitizePath bothDisabledConfig ("a//b".toList) = some ("a//b".toList) := by
  constructor
  · decide
  · rfl

/-- C4 (amended): for every configuration in which at least one
normalization flag is enabled, and every input containing consecutive
slashes, the sanitized output contains no run of two or more '/'. -/
theorem sanitize_no_ds : ∀ (cfg : RouterConfig) (path out : List Char),
    ¬(cfg.DisableAutoAddTrailingSlash = true ∧ cfg.DisableAutoAddExactMatchWildcard = true) →
    containsDS path = true →
    sanitizePath cfg path = some out →
    containsDS out = false := by
  intro cfg path out hcfg hpath hout
  unfold sanitizePath at hout
  rw [if_neg hcfg, collapseLoop_eq_squeeze] at hout
  cases hsq : squeeze path with
  | nil => rw [hsq] at hout; cases hout
  | cons c cs =>
    rw [hsq] at hout
    have h1 : containsDS (c :: cs) = false := by
      rw [← hsq]; exact containsDS_squeeze path
    have h4 := containsDS_withWildcard cfg _
      (containsDS_withTrailingSlash cfg _ (containsDS_withLeadingSlash c cs h1))
    rw [Option.some.injEq] at hout
    rw [← hout]
    exact h4

/-- C4 (witness): the amended statement evaluated under the default
configuration on "a//b", whose sanitized form is "/a/b/" plus the
exact-match marker. -/
theorem sanitize_no_ds_witness :
    (¬(defaultConfig.DisableAutoAddTrailingSlash = true ∧
        defaultConfig.DisableAutoAddExactMatchWildcard = true)) ∧
      containsDS ("a//b".toList) = true ∧
      sanitizePath defaultConfig ("a//b".toList) = some ("/a/b/".toList ++ exactMatchMarker) ∧
      containsDS ("/a/b/".toList ++ exactMatchMarker) = false :=
  ⟨by decide, by decide, by rw [sanitizePath_eq_sq]; decide,
    sanitize_no_ds defaultConfig ("a//b".toList) ("/a/b/".toList ++ exactMatchMarker)
      (by decide) (by decide) (by rw [sanitizePath_eq_sq]; decide)⟩

/-- C2 (code bug): `ServeHTTP` reads `hasSetupRoutes` only before taking
the mutex and never re-checks it after `Lock()`, so two requests that
both pass the unguarded check run `SetupRoutes` once each: a state in
which setup has executed twice (and every handler was registered with the
multiplexer twice) is reachable from the initial dispatch state,
refuting the claimed at-most-once property. -/
theorem serveHTTP_setup_twice :
    ∃ s : DispatchState,
      Relation.ReflTransGen DispatchStep dispatchInit s ∧ s.setupCount = 2 := by
  refine ⟨⟨true, true, 2, 5, 3⟩, ?_, rfl⟩
  refine Relation.ReflTransGen.head (DispatchStep.seenUnset1 false 0 0) ?_
  refine Relation.ReflTransGen.head (DispatchStep.seenUnset2 false 0 1) ?_
  refine Relation.ReflTransGen.head (DispatchStep.lock1 false 0 1) ?_
  refine Relation.ReflTransGen.head (DispatchStep.setup1 false true 0 1) ?_
  refine Relation.ReflTransGen.head (DispatchStep.setFlag1 false true 1 1) ?_
  refine Relation.ReflTransGen.head (DispatchStep.unlock1 true true 1 1) ?_
  refine Relation.ReflTransGen.head (DispatchStep.lock2 true 1 5) ?_
  exact Relation.ReflTransGen.single (DispatchStep.setup2 true true 1 5)

theorem isSome_map_opt {α β : Type} (f : α → β) (o : Option α) :
    (o.map f).isSome = o.isSome := by
  cases o <;> rfl

/-- C6: for a grouped route the string fed to sanitization is '/', the
group's path fragment, '/', then the route's own pattern; and whenever at
least one normalization flag is enabled (so the collapsing step runs), a
trailing '/' on the group fragment or a leading '/' on the route's
pattern leaves the registered string unchanged — the two parts are joined
by exactly one '/' separator. -/
theorem group_path_single_separator :
    ∀ (H : Type) (cfg : RouterConfig) (route : Route H) (rg : RouteGroup H),
      getPathForRouteWithRouteGroup cfg route rg =
        (sanitizePath cfg ('/' :: rg.Pre ++ '/' :: route.Pattern)).map
          (fun p => route.Method ++ ' ' :: p) ∧
      (¬(cfg.DisableAutoAddTrailingSlash = true ∧
          cfg.DisableAutoAddExactMatchWildcard = true) →
        getPathForRouteWithRouteGroup cfg route { rg with Pre := rg.Pre ++ ['/'] } =
          getPathForRouteWithRouteGroup cfg route rg ∧
        getPathForRouteWithRouteGroup cfg { route with Pattern := '/' :: route.Pattern } rg =
          getPathForRouteWithRouteGroup cfg route rg) := by
  intro H cfg route rg
  refine ⟨rfl, fun hcfg => ⟨?_, ?_⟩⟩
  · unfold getPathForRouteWithRouteGroup
    rw [sanitizePath_congr cfg _ _ hcfg ?_]
    rw [collapseLoop_eq_squeeze, collapseLoop_eq_squeeze]
    have key := squeeze_append_ds ('/' :: rg.Pre) route.Pattern
    simpa using key
  · unfold getPathForRouteWithRouteGroup
    rw [sanitizePath_congr cfg _ _ hcfg ?_]
    rw [collapseLoop_eq_squeeze, collapseLoop_eq_squeeze]
    have key := squeeze_append_ds ('/' :: rg.Pre) route.Pattern
    simpa using key

/-- C6 (witness): the separator robustness evaluated at the sample route
and group under the default configuration. -/
theorem group_path_single_separator_witness :
    (getPathForRouteWithRouteGroup defaultConfig c3Route c3Group =
      (sanitizePath defaultConfig ('/' :: c3Group.Pre ++ '/' :: c3Route.Pattern)).map
        (fun p => c3Route.Method ++ ' ' :: p)) ∧
    (¬(defaultConfig.DisableAutoAddTrailingSlash = true ∧
        defaultConfig.DisableAutoAddExactMatchWildcard = true)) ∧
    getPathForRouteWithRouteGroup defaultConfig c3Route
        { c3Group with Pre := c3Group.Pre ++ ['/'] } =
      getPathForRouteWithRouteGroup defaultConfig c3Route c3Group ∧
    getPathForRouteWithRouteGroup defaultConfig
        { c3Route with Pattern := '/' :: c3Route.Pattern } c3Group =
      getPathForRouteWithRouteGroup defaultConfig c3Route c3Group :=
  ⟨(group_path_single_separator Unit defaultConfig c3Route c3Group).1, by decide,
    ((group_path_single_separator Unit defaultConfig c3Route c3Group).2 (by decide)).1,
    ((group_path_single_separator Unit defaultConfig c3Route c3Group).2 (by decide)).2⟩

/-- C7: a route whose raw pattern is the empty string gets a registration
path under every configuration (the sanitizer is fed "/" and does not
fail); under the default configuration a pattern of only slashes
sanitizes to "/" extended with the exact-match marker, and the empty
pattern registers as the method, " /", and the marker. -/
theorem empty_pattern_ok :
    ∀ (H : Type) (cfg : RouterConfig) (method : List Char) (h : H)
      (mws : List (H → H)) (n : Nat),
      (getPathForRoute cfg
        { Method := method, Pattern := [], HandlerFunc := h,
          Middlewares := mws }).isSome = true ∧
      sanitizePath defaultConfig (List.replicate (n + 1) '/') =
        some ('/' :: exactMatchMarker) ∧
      getPathForRoute defaultConfig
          { Method := method, Pattern := [], HandlerFunc := h, Middlewares := mws } =
        some (method ++ ' ' :: '/' :: exactMatchMarker) := by
  intro H cfg method h mws n
  refine ⟨?_, ?_, ?_⟩
  · unfold getPathForRoute
    rw [isSome_map_opt]
    exact sanitizePath_isSome cfg ['/'] (by simp)
  · rw [sanitizePath_eq_sq, if_neg (by decide), squeeze_replicate]
    rfl
  · unfold getPathForRoute
    rw [sanitizePath_eq_sq, if_neg (by decide)]
    rfl

/-- C9: with at least one normalization flag enabled the sanitizer fails
(the Go code indexes `path[0]` on an empty string, a panic) exactly on
the empty input; it succeeds on every non-empty input; and both public
path-construction functions prepend '/' to what they pass it, so they
always succeed. -/
theorem sanitize_partiality :
    ∀ (H : Type) (cfg : RouterConfig) (x : List Char) (route : Route H) (rg : RouteGroup H),
      (¬(cfg.DisableAutoAddTrailingSlash = true ∧
          cfg.DisableAutoAddExactMatchWildcard = true) → sanitizePath cfg [] = none) ∧
      (x ≠ [] → (sanitizePath cfg x).isSome = true) ∧
      (getPathForRoute cfg route).isSome = true ∧
      (getPathForRouteWithRouteGroup cfg route rg).isSome = true := by
  intro H cfg x route rg
  refine ⟨fun hcfg => ?_, fun hx => sanitizePath_isSome cfg x hx, ?_, ?_⟩
  · unfold sanitizePath
    rw [if_neg hcfg, collapseLoop_eq_squeeze]
    rfl
  · unfold getPathForRoute
    rw [isSome_map_opt]
    exact sanitizePath_isSome cfg _ (by simp)
  · unfold getPathForRouteWithRouteGroup
    rw [isSome_map_opt]
    exact sanitizePath_isSome cfg _ (by simp)

/-- C9 (witness): the partiality statement evaluated at the default
configuration, the non-empty input "a", and the sample route and group. -/
theorem sanitize_partiality_witness :
    sanitizePath defaultConfig [] = none ∧
      (sanitizePath defaultConfig ("a".toList)).isSome = true ∧
      (getPathForRoute defaultConfig c3Route).isSome = true ∧
      (getPathForRouteWithRouteGroup defaultConfig c3Route c3Group).isSome = true :=
  ⟨(sanitize_partiality Unit defaultConfig ("a".toList) c3Route c3Group).1 (by decide),
    (sanitize_partiality Unit defaultConfig ("a".toList) c3Route c3Group).2.1 (by decide),
    (sanitize_partiality Unit defaultConfig ("a".toList) c3Route c3Group).2.2.1,
    (sanitize_partiality Unit defaultConfig ("a".toList) c3Route c3Group).2.2.2⟩

/-- Point update of a list, used to express what Go's pointer aliasing
does when `Use` is called on the handle of the i-th registered entity:
the router's canonical list changes at exactly that index. -/
def updateAt {α : Type} : List α → Nat → (α → α) → List α
  | [], _, _ => []
  | a :: rest, 0, f => f a :: rest
  | a :: rest, n + 1, f => a :: updateAt rest n f

/-- Calling `Route.Use` on the handle of the i-th entry of `r.routes`
(the handle returned by `RegisterRoute` aliases that entry). -/
def Router.routeUseAt {H : Type} (r : Router H) (i : Nat) (mws : List (H → H)) : Router H :=
  { r with routes := updateAt r.routes i (fun rt => Route.use rt mws) }

/-- Calling `RouteGroup.Use` on the handle of the i-th entry of
`r.routeGroups` (the handle returned by `Group` aliases that entry). -/
def Router.groupUseAt {H : Type} (r : Router H) (i : Nat) (mws : List (H → H)) : Router H :=
  { r with routeGroups := updateAt r.routeGroups i (fun rg => RouteGroup.use rg mws) }

theorem updateAt_get_eq {α : Type} :
    ∀ (l : List α) (i : Nat) (f : α → α), (updateAt l i f)[i]? = (l[i]?).map f := by
  intro l
  induction l with
  | nil => intro i f; cases i <;> rfl
  | cons a rest ih =>
    intro i f
    cases i with
    | zero => simp [updateAt]
    | succ n => simpa [updateAt] using ih n f

theorem updateAt_get_ne {α : Type} :
    ∀ (l : List α) (i j : Nat) (f : α → α), j ≠ i → (updateAt l i f)[j]? = l[j]? := by
  intro l
  induction l with
  | nil => intro i j f _; cases i <;> rfl
  | cons a rest ih =>
    intro i j f hne
    cases i with
    | zero =>
      cases j with
      | zero => exact absurd rfl hne
      | succ k => simp [updateAt]
    | succ n =>
      cases j with
      | zero => simp [updateAt]
      | succ k => simpa [updateAt] using ih n k f (fun hk => hne (by rw [hk]))

/-- C8: `Use` on a Route or a Route Group appends the given middlewares,
in call order, to that entity's own middleware list; the entity's other
fields are untouched (the call returns the same entity), and viewed
through the owning router, updating the i-th route or group changes no
other route, no other group, and never the router's global middleware
list. -/
theorem use_frame :
    ∀ (H : Type) (rt : Route H) (rg : RouteGroup H) (r : Router H)
      (mws : List (H → H)) (i j : Nat),
      (Route.use rt mws).Middlewares = rt.Middlewares ++ mws ∧
      (Route.use rt mws).Method = rt.Method ∧
      (Route.use rt mws).Pattern = rt.Pattern ∧
      (Route.use rt mws).HandlerFunc = rt.HandlerFunc ∧
      (RouteGroup.use rg mws).Middlewares = rg.Middlewares ++ mws ∧
      (RouteGroup.use rg mws).Pre = rg.Pre ∧
      (RouteGroup.use rg mws).Routes = rg.Routes ∧
      (Router.routeUseAt r i mws).middlewares = r.middlewares ∧
      (Router.routeUseAt r i mws).routeGroups = r.routeGroups ∧
      (Router.groupUseAt r i mws).middlewares = r.middlewares ∧
      (Router.groupUseAt r i mws).routes = r.routes ∧
      (Router.routeUseAt r i mws).routes[i]? = (r.routes[i]?).map (fun x => Route.use x mws) ∧
      (Router.groupUseAt r i mws).routeGroups[i]? =
        (r.routeGroups[i]?).map (fun x => RouteGroup.use x mws) ∧
      (j ≠ i →
        (Router.routeUseAt r i mws).routes[j]? = r.routes[j]? ∧
        (Router.groupUseAt r i mws).routeGroups[j]? = r.routeGroups[j]?) := by
  intro H rt rg r mws i j
  refine ⟨rfl, rfl, rfl, rfl, rfl, rfl, rfl, rfl, rfl, rfl, rfl, ?_, ?_, fun hne => ⟨?_, ?_⟩⟩
  · exact updateAt_get_eq r.routes i _
  · exact updateAt_get_eq r.routeGroups i _
  · exact updateAt_get_ne r.routes i j _ hne
  · exact updateAt_get_ne r.routeGroups i j _ hne

/-- A sample router owning two routes and two groups, for evaluating the
frame statement. -/
def c8Router : Router Unit :=
  { routes := [c3Route, c3Route], routeGroups := [c3Group, c3Group], middlewares := [],
    hasSetupRoutes := false, config := defaultConfig }

/-- C8 (witness): the frame statement evaluated on a two-route,
two-group router, updating index 0 and observing index 1. -/
theorem use_frame_witness :
    (Route.use c3Route []).Middlewares = c3Route.Middlewares ++ [] ∧
      (Router.routeUseAt c8Router 0 []).routes[1]? = c8Router.routes[1]? ∧
      (Router.groupUseAt c8Router 0 []).routeGroups[1]? = c8Router.routeGroups[1]? :=
  ⟨(use_frame Unit c3Route c3Group c8Router [] 0 1).1,
    ((use_frame Unit c3Route c3Group c8Router [] 0 1).2.2.2.2.2.2.2.2.2.2.2.2.2
      (by decide)).1,
    ((use_frame Unit c3Route c3Group c8Router [] 0 1).2.2.2.2.2.2.2.2.2.2.2.2.2
      (by decide)).2⟩

/-- Every route of every group of a router gives rise to a registration in
`setupRoutes`, composed over globals ++ (group middlewares ++ route
middlewares). -/
theorem setupRoutes_group_mem :
    ∀ (H : Type) (R : Router H) (rg : RouteGroup H) (rr : Route H),
      rg ∈ R.routeGroups → rr ∈ rg.Routes →
      (getPathForRouteWithRouteGroup R.config rr rg,
        applyMiddlewares rr.HandlerFunc
          (R.middlewares ++ (rg.Middlewares ++ rr.Middlewares))) ∈ setupRoutes R := by
  intro H R rg rr hrg hrr
  unfold setupRoutes combineMiddlewares
  refine List.mem_append.mpr (Or.inr ?_)
  rw [List.mem_flatten]
  exact ⟨_, List.mem_map_of_mem _ hrg, List.mem_map_of_mem _ hrr⟩

/-- C1 (amended): for a route of a group built by `Group` whose builder
extended the seeded middleware list by the group-own middlewares `gms`,
the handler registered at setup composes the sequence
[setup-time globals…, globals copied at group creation…, group-own…,
route-own…].  The claimed [global…, group-own…, route-own…] layering
holds except that the group's list starts with the seeded copy of the
parent's globals, so every global middleware present at group creation
runs twice. -/
theorem group_route_chain :
    ∀ (H : Type) (r : Router H) (pre : List Char) (builder : Router H → Router H)
      (gms : List (H → H)) (rr : Route H),
      (builder (groupTmp r)).middlewares = r.middlewares ++ gms →
      rr ∈ (Router.group r pre builder).2.Routes →
      (getPathForRouteWithRouteGroup r.config rr (Router.group r pre builder).2,
        applyMiddlewares rr.HandlerFunc
          (r.middlewares ++ ((r.middlewares ++ gms) ++ rr.Middlewares)))
        ∈ setupRoutes (Router.group r pre builder).1 := by
  intro H r pre builder gms rr hmw hmem
  have h2 : (Router.group r pre builder).2 ∈ (Router.group r pre builder).1.routeGroups := by
    show (Router.group r pre builder).2 ∈
      r.routeGroups ++ [(Router.group r pre builder).2]
    exact List.mem_append.mpr (Or.inr (List.mem_singleton.mpr rfl))
  rw [← hmw]
  exact setupRoutes_group_mem H _ _ rr h2 hmem

/-- A trace-observable handler: a transformer of the list of middleware
marks seen so far. -/
def c1Handler : List Nat → List Nat := fun t => t

/-- A global middleware that records mark 0 before passing on. -/
def c1G : (List Nat → List Nat) → (List Nat → List Nat) := fun next t => next (t ++ [0])

/-- A group middleware that records mark 1 before passing on. -/
def c1M : (List Nat → List Nat) → (List Nat → List Nat) := fun next t => next (t ++ [1])

/-- A router built through the public API: one global middleware (added
BEFORE the group is created), then a group whose builder registers one
route and attaches one group middleware. -/
def c1Router : Router (List Nat → List Nat) :=
  (Router.group (Router.use (newRouter (List Nat → List Nat)) [c1G]) ("api".toList)
    (fun tr =>
      Router.use ((Router.registerRoute tr ("GET".toList) ("x".toList) c1Handler).1) [c1M])).1

/-- C1 (counterexample): running the composed handler that setup registers
for the group's only route produces the trace [0, 0, 1] — the global
middleware executes twice (once from the router's global list, once from
the copy seeded into the group at creation) — whereas the claimed
composition [global, group-own] over the handler produces [0, 1]. -/
theorem group_chain_cex :
    (setupRoutes c1Router).map (fun pr => pr.2 []) = [[0, 0, 1]] ∧
      applyMiddlewares c1Handler [c1G, c1M] [] = [0, 1] ∧
      ([0, 0, 1] : List Nat) ≠ [0, 1] := by
  refine ⟨rfl, rfl, by decide⟩

/-- A sample middleware over `Nat` handlers, playing the global role. -/
def c1wMwG : Nat → Nat := fun n => n + 1

/-- A sample middleware over `Nat` handlers, playing the group-own role. -/
def c1wMwM : Nat → Nat := fun n => n * 2

/-- The route the sample builder registers. -/
def c1wRoute : Route Nat :=
  { Method := "GET".toList, Pattern := "x".toList, HandlerFunc := 7, Middlewares := [] }

/-- A parent router that already carries one global middleware. -/
def c1wParent : Router Nat :=
  { routes := [], routeGroups := [], middlewares := [c1wMwG], hasSetupRoutes := false,
    config := defaultConfig }

/-- A group builder registering one route and one group middleware. -/
def c1wBuilder : Router Nat → Router Nat := fun tr =>
  Router.use ((Router.registerRoute tr ("GET".toList) ("x".toList) 7).1) [c1wMwM]

/-- C1 (witness): the amended chain statement evaluated on the sample
parent, builder and route. -/
theorem group_route_chain_witness :
    ((c1wBuilder (groupTmp c1wParent)).middlewares = c1wParent.middlewares ++ [c1wMwM]) ∧
      (c1wRoute ∈ (Router.group c1wParent ("api".toList) c1wBuilder).2.Routes) ∧
      ((getPathForRouteWithRouteGroup c1wParent.config c1wRoute
          (Router.group c1wParent ("api".toList) c1wBuilder).2,
        applyMiddlewares c1wRoute.HandlerFunc
          (c1wParent.middlewares ++ ((c1wParent.middlewares ++ [c1wMwM]) ++
            c1wRoute.Middlewares)))
        ∈ setupRoutes (Router.group c1wParent ("api".toList) c1wBuilder).1) :=
  ⟨rfl, List.mem_singleton.mpr rfl,
    group_route_chain Nat c1wParent ("api".toList) c1wBuilder [c1wMwM] c1wRoute rfl
      (List.mem_singleton.mpr rfl)⟩

end GogoRouter
